import Mathlib

/-!
Verification development for the signal-acquisition and scheduling engine of
`isat_service.py`: the serial-channel state machine, the `AT+CSQ` response
parser and dBm lookup table, the storage/history query, the anchored-deadline
schedulers, the auto-call configuration endpoints and the dial operation.

Raw modem text is modelled as `List Char`; Python floats whose values are
exact half-dB steps are modelled as `ℚ`; SQLite rows as a `CsqRow` structure.
-/

/-- Characters matched by the regex class `\s` (ASCII range), as used by
`re.search` in `parse_csq_response`. -/
def isSpaceChar (c : Char) : Bool :=
  c == ' ' || c == '\t' || c == '\n' || c == '\x0b' || c == '\x0c' || c == '\r'

/-- Characters matched by the regex class `\d` (ASCII digits). -/
def isDigitChar (c : Char) : Bool :=
  '0' ≤ c && c ≤ '9'

/-- Numeric value of a digit string, as computed by Python `int` on a
captured `\d+` group. -/
def digitsToNat (l : List Char) : ℕ :=
  l.foldl (fun a c => 10 * a + (c.toNat - 48)) 0

/-- Greedy `\d+`-style span: the maximal leading run of digits and the rest. -/
def takeDigits : List Char → List Char × List Char
  | [] => ([], [])
  | c :: cs =>
    if isDigitChar c then
      let p := takeDigits cs
      (c :: p.1, p.2)
    else ([], c :: cs)

/-- Greedy `\s*`-style munch: drops the maximal leading run of whitespace. -/
def dropSpaces : List Char → List Char
  | [] => []
  | c :: cs => if isSpaceChar c then dropSpaces cs else c :: cs

/-- The literal characters of a string. -/
def strL (s : String) : List Char := s.data

/-- Attempt to match the regex `\+CSQ:\s*(\d+),(\d+)` of `parse_csq_response`
at the head of the text, returning the two captured integers. The greedy
subpatterns are deterministic here: `\s*` is followed by `\d+` and each `\d+`
is followed by a non-digit requirement, so maximal munch is the unique match. -/
def matchCsqAt (l : List Char) : Option (ℕ × ℕ) :=
  match l with
  | '+' :: 'C' :: 'S' :: 'Q' :: ':' :: rest =>
    let p1 := takeDigits (dropSpaces rest)
    if p1.1.isEmpty then none
    else
      match p1.2 with
      | ',' :: rest3 =>
        let p2 := takeDigits rest3
        if p2.1.isEmpty then none
        else some (digitsToNat p1.1, digitsToNat p2.1)
      | _ => none
  | _ => none

/-- `re.search` over the text: try the pattern at each position from the left,
first success wins (leftmost match), as in `parse_csq_response`. -/
def searchCsq : List Char → Option (ℕ × ℕ)
  | [] => none
  | c :: cs =>
    match matchCsqAt (c :: cs) with
    | some r => some r
    | none => searchCsq cs

/-- The `DBM_LOOKUP` dict of `isat_service.py` as a finite map on the RSSI
index; `dbmOf` below performs the `.get(rssi, None)` access, so absent keys
give `none`. -/
def DBM_LOOKUP : ℕ → Option ℚ
  | 0 => some 0
  | 1 => some (-133)
  | 2 => some (-132.5)
  | 3 => some (-132)
  | 4 => some (-131.5)
  | 5 => some (-131)
  | 6 => some (-130.5)
  | 7 => some (-130)
  | 8 => some (-129.5)
  | 9 => some (-129)
  | 10 => some (-128.5)
  | 11 => some (-128)
  | 12 => some (-127.5)
  | 13 => some (-127)
  | 14 => some (-126.5)
  | 15 => some (-126)
  | 16 => some (-125.5)
  | 17 => some (-125)
  | 18 => some (-124.5)
  | 19 => some (-124)
  | 20 => some (-123.5)
  | 21 => some (-123)
  | 22 => some (-122.5)
  | 23 => some (-122)
  | 24 => some (-121.5)
  | 25 => some (-121)
  | 26 => some (-120.5)
  | 27 => some (-120)
  | 28 => some (-119.5)
  | 29 => some (-119)
  | 30 => some (-118.5)
  | 31 => some (-118)
  | 32 => some (-117.5)
  | 33 => some (-117)
  | 34 => some (-116.5)
  | 35 => some (-116)
  | 36 => some (-115.5)
  | 37 => some (-115)
  | 38 => some (-114.5)
  | 39 => some (-114)
  | 40 => some (-113.5)
  | 41 => some (-113)
  | 42 => some (-112.5)
  | 43 => some (-112)
  | 44 => some (-111.5)
  | 45 => some (-111)
  | 46 => some (-110.5)
  | 47 => some (-110)
  | 48 => some (-109.5)
  | 49 => some (-109)
  | 50 => some (-108.5)
  | 51 => some (-108)
  | 52 => some (-107.5)
  | 53 => some (-107)
  | 54 => some (-106.5)
  | 55 => some (-106)
  | _ => none

/-- `DBM_LOOKUP.get(rssi, None)` of `parse_csq_response`. -/
def dbmOf (rssi : ℕ) : Option ℚ :=
  DBM_LOOKUP rssi

/-- Result triple of `parse_csq_response`: `(rssi, dbm, ber)`, each possibly
absent. -/
abbrev CsqResult := Option ℕ × Option ℚ × Option ℕ

/-- `parse_csq_response(resp)`: regex-search the response for
`\+CSQ:\s*(\d+),(\d+)`; on a match return the RSSI index, its dBm value from
`DBM_LOOKUP` and the BER index; otherwise return the all-`None` triple. -/
def parse_csq_response (resp : List Char) : CsqResult :=
  match searchCsq resp with
  | some rb => (some rb.1, dbmOf rb.1, some rb.2)
  | none => (none, none, none)

set_option maxHeartbeats 1000000 in
/-- C1: for every rssiIndex in [1,55] the signal mapper produces
`-133.0 + 0.5 * (rssiIndex - 1)` dBm; rssiIndex 0 maps to 0; and any
rssiIndex outside [0,55] yields no dBm value. -/
theorem dbm_lookup_spec :
    (∀ i : ℕ, 1 ≤ i → i ≤ 55 → dbmOf i = some (-133 + (1 / 2) * ((i : ℚ) - 1)))
    ∧ dbmOf 0 = some 0
    ∧ (∀ i : ℕ, 55 < i → dbmOf i = none) := by
  refine ⟨?_, rfl, ?_⟩
  · intro i h1 h2
    interval_cases i <;> norm_num [dbmOf, DBM_LOOKUP]
  · intro i hi
    obtain ⟨k, rfl⟩ : ∃ k, i = k + 56 := ⟨i - 56, by omega⟩
    rfl

/-- C1 witness: the lookup evaluated at rssi indices 17, 0 and 56. -/
theorem dbm_lookup_spec_wit :
    dbmOf 17 = some (-133 + (1 / 2) * ((17 : ℚ) - 1))
    ∧ dbmOf 0 = some 0 ∧ dbmOf 56 = none :=
  ⟨dbm_lookup_spec.1 17 (by norm_num) (by norm_num),
   dbm_lookup_spec.2.1,
   dbm_lookup_spec.2.2 56 (by norm_num)⟩

/-- The literal `+CSQ` token searched for by the parser. -/
def csqTok : List Char := ['+', 'C', 'S', 'Q']

/-- A successful `matchCsqAt` can only happen where the text starts with the
literal `+CSQ:` header. -/
theorem matchCsqAt_shape (l : List Char) (r : ℕ × ℕ)
    (h : matchCsqAt l = some r) : ['+', 'C', 'S', 'Q', ':'] <+: l := by
  unfold matchCsqAt at h
  split at h
  · rename_i rest
    exact ⟨rest, rfl⟩
  · exact absurd h (by simp)

/-- A successful `searchCsq` implies the text contains the `+CSQ` token. -/
theorem searchCsq_mem (l : List Char) (r : ℕ × ℕ)
    (h : searchCsq l = some r) : csqTok <:+: l := by
  induction l with
  | nil => simp [searchCsq] at h
  | cons c cs ih =>
    cases hm : matchCsqAt (c :: cs) with
    | some r' =>
      obtain ⟨t, ht⟩ := matchCsqAt_shape _ _ hm
      exact List.IsPrefix.isInfix ⟨':' :: t, ht⟩
    | none =>
      simp only [searchCsq, hm] at h
      exact List.infix_cons (ih h)

/-- `parse_csq_response` on text containing no `+CSQ` token returns the
all-`None` triple. -/
theorem parse_no_token (resp : List Char) (h : ¬ (csqTok <:+: resp)) :
    parse_csq_response resp = (none, none, none) := by
  cases hs : searchCsq resp with
  | some r => exact absurd (searchCsq_mem _ _ hs) h
  | none => simp [parse_csq_response, hs]

/-- `re.search` skips a leading region that contains no `+CSQ` token, when
the remainder of the text starts with `'+'`. -/
theorem searchCsq_append (l₁ l₂ : List Char) (h1 : ¬ (csqTok <:+: l₁))
    (h2 : l₂.head? = some '+') : searchCsq (l₁ ++ l₂) = searchCsq l₂ := by
  induction l₁ with
  | nil => rfl
  | cons c cs ih =>
    have hm : matchCsqAt (c :: (cs ++ l₂)) = none := by
      cases hmc : matchCsqAt (c :: (cs ++ l₂)) with
      | none => rfl
      | some r =>
        exfalso
        obtain ⟨t, ht⟩ := matchCsqAt_shape _ _ hmc
        rcases cs with _ | ⟨a, _ | ⟨b, _ | ⟨d, _ | ⟨e, cs'⟩⟩⟩⟩
        · simp only [List.nil_append, List.cons_append, List.cons.injEq] at ht
          obtain ⟨rfl, hl⟩ := ht
          rw [← hl] at h2
          simp at h2
        · simp only [List.cons_append, List.nil_append, List.cons.injEq] at ht
          obtain ⟨rfl, rfl, hl⟩ := ht
          rw [← hl] at h2
          simp at h2
        · simp only [List.cons_append, List.nil_append, List.cons.injEq] at ht
          obtain ⟨rfl, rfl, rfl, hl⟩ := ht
          rw [← hl] at h2
          simp at h2
        · simp only [List.cons_append, List.nil_append, List.cons.injEq] at ht
          obtain ⟨rfl, rfl, rfl, rfl, hl⟩ := ht
          rw [← hl] at h2
          simp at h2
        · simp only [List.cons_append, List.cons.injEq] at ht
          obtain ⟨rfl, rfl, rfl, rfl, rfl, -⟩ := ht
          exact h1 (List.IsPrefix.isInfix ⟨':' :: cs', rfl⟩)
    have hstep : searchCsq ((c :: cs) ++ l₂) = searchCsq (cs ++ l₂) := by
      show (match matchCsqAt (c :: (cs ++ l₂)) with
            | some r => some r
            | none => searchCsq (cs ++ l₂)) = searchCsq (cs ++ l₂)
      rw [hm]
    rw [hstep]
    exact ih (fun hin => h1 (List.infix_cons hin))

/-- True when the text does not begin with an ASCII digit, so a greedy `\d+`
ending just before it cannot extend into it. -/
def noDigitHead : List Char → Bool
  | [] => true
  | c :: _ => !isDigitChar c

/-- `takeDigits` takes nothing from a text without a leading digit. -/
theorem takeDigits_none (post : List Char) (h : noDigitHead post = true) :
    takeDigits post = ([], post) := by
  cases post with
  | nil => rfl
  | cons c cs =>
    have hc : isDigitChar c = false := by simpa [noDigitHead] using h
    simp [takeDigits, hc]

/-- `searchCsq` on the exact text `+CSQ: 17,0` followed by anything that does
not begin with a digit captures the pair `(17, 0)`. -/
theorem searchCsq_at_pat (post : List Char) (h : noDigitHead post = true) :
    searchCsq (strL ("+CSQ: 17,0") ++ post) = some (17, 0) := by
  have hp := takeDigits_none post h
  show (some (digitsToNat ['1', '7'], digitsToNat ('0' :: (takeDigits post).1))
      : Option (ℕ × ℕ)) = some (17, 0)
  rw [hp]
  rfl

/-- C2 counterexample: the text `"+CSQ: 17,01"` contains the substring
`"+CSQ: 17,0"`, yet the greedy `\d+` of the regex captures BER `01`, so the
parser returns BER 1 and not the claimed triple. -/
theorem parse_csq_substr_cex :
    strL ("+CSQ: 17,0") <:+: strL ("+CSQ: 17,01")
    ∧ parse_csq_response (strL ("+CSQ: 17,01")) ≠ (some 17, some (-125), some 0) := by
  constructor
  · exact ⟨[], ['1'], rfl⟩
  · intro h
    exact absurd (congrArg (fun t : CsqResult => t.2.2) h) (by decide)

/-- C2 (amended): on any text of the form `pre ++ "+CSQ: 17,0" ++ post` where
`pre` contains no `+CSQ` token and `post` does not begin with a digit, the
parser returns `(17, -125.0, 0)`; and on any text containing no `+CSQ` token
it returns the no-match triple (all components absent), not an error. -/
theorem parse_csq_response_spec :
    (∀ pre post : List Char, ¬ (csqTok <:+: pre) → noDigitHead post = true →
      parse_csq_response (pre ++ strL ("+CSQ: 17,0") ++ post)
        = (some 17, some (-125), some 0))
    ∧ (∀ resp : List Char, ¬ (csqTok <:+: resp) →
      parse_csq_response resp = (none, none, none)) := by
  constructor
  · intro pre post h1 h2
    have hs : searchCsq (pre ++ (strL ("+CSQ: 17,0") ++ post)) = some (17, 0) := by
      rw [searchCsq_append pre _ h1 (by rfl)]
      exact searchCsq_at_pat post h2
    unfold parse_csq_response
    rw [List.append_assoc, hs]
    rfl
  · exact parse_no_token

/-- C2 witness: the amended theorem evaluated on a concrete response holding
the sample `+CSQ: 17,0` line and on a concrete token-free response. -/
theorem parse_csq_response_spec_wit :
    parse_csq_response (strL ("OK\r\n") ++ strL ("+CSQ: 17,0") ++ strL ("\r\nOK"))
      = (some 17, some (-125), some 0)
    ∧ parse_csq_response (strL ("ERROR")) = (none, none, none) :=
  ⟨parse_csq_response_spec.1 (strL ("OK\r\n")) (strL ("\r\nOK")) (by decide) (by decide),
   parse_csq_response_spec.2 (strL ("ERROR")) (by decide)⟩

/-- `ChannelState` of the module-level `ser` handle: `Closed` when
`ser is None`. -/
inductive SerialChan where
  | Closed
  | Open
deriving DecidableEq

/-- The serial exchange of `read_csq_once` on an open channel: either the
decoded response text, or an I/O exception. -/
def readFromOpenChan (exch : Except Unit (List Char)) : CsqResult × SerialChan :=
  match exch with
  | .ok resp => (parse_csq_response resp, .Open)
  | .error _ => ((none, none, none), .Closed)

/-- `read_csq_once()`: when `ser is None`, first re-attempt `open_serial()`
(its outcome is `openOk`); if the channel is still closed return the `None`
triple; otherwise run the locked exchange, and on an I/O exception set
`ser = None` and return the `None` triple. -/
def read_csq_once (st : SerialChan) (openOk : Bool)
    (exch : Except Unit (List Char)) : CsqResult × SerialChan :=
  match st, openOk with
  | .Closed, false => ((none, none, none), .Closed)
  | .Closed, true => readFromOpenChan exch
  | .Open, _ => readFromOpenChan exch

/-- A `csq_log` row: `(timestamp, rssi, dbm, ber)`. -/
structure CsqRow where
  timestamp : ℤ
  rssi : Option ℕ
  dbm : Option ℚ
  ber : Option ℕ
deriving DecidableEq

/-- Observable effects of one `polling_loop` iteration on storage and the
remote sink. -/
structure PollOutcome where
  stored : List CsqRow
  published : List CsqRow
  continues : Bool
deriving DecidableEq

/-- Modelled from the spec: one `polling_loop` cycle after `read_csq_once`.
The storage branch is the src code (`if rssi is not None: insert_csq(...)`,
otherwise log and skip). The remote-sync publish step of spec §4.4 lives in
repository file variants that are not under src, so it is modelled from the
spec's words here: on success the reading is also published fire-and-forget,
and a failed publish (`publishOk = false`) is only logged — it changes
neither the stored data nor the fact that the loop continues. -/
def poll_cycle (ts : ℤ) (res : CsqResult) (_publishOk : Bool) : PollOutcome :=
  match res.1 with
  | some r => { stored := [⟨ts, some r, res.2.1, res.2.2⟩],
                published := [⟨ts, some r, res.2.1, res.2.2⟩],
                continues := true }
  | none => { stored := [], published := [], continues := true }

/-- C6: on every poll cycle whose read parsed a signal index, the reading is
appended to storage and published to the sync collaborator, and a publish
failure never blocks or aborts the loop: the outcome is the same whether the
publish succeeded or failed, and the loop always continues. -/
theorem poll_success_stores_and_publishes (ts : ℤ) (r : ℕ) (d : Option ℚ)
    (b : Option ℕ) (publishOk : Bool) :
    poll_cycle ts (some r, d, b) publishOk
      = { stored := [⟨ts, some r, d, b⟩], published := [⟨ts, some r, d, b⟩],
          continues := true } := rfl

/-- C7: a poll cycle whose AT response contains no `+CSQ` match leaves the
channel open (not marked failed), stores no record, and the loop proceeds. -/
theorem poll_no_match_skips (st : SerialChan) (resp : List Char) (ts : ℤ)
    (publishOk : Bool) (h : ¬ (csqTok <:+: resp)) :
    read_csq_once st true (.ok resp) = ((none, none, none), .Open)
    ∧ poll_cycle ts (read_csq_once st true (.ok resp)).1 publishOk
        = { stored := [], published := [], continues := true } := by
  have hr : read_csq_once st true (.ok resp) = ((none, none, none), .Open) := by
    cases st <;> simp [read_csq_once, readFromOpenChan, parse_no_token resp h]
  refine ⟨hr, ?_⟩
  rw [hr]
  rfl

/-- C7 witness: a no-match cycle evaluated on the concrete response `OK`. -/
theorem poll_no_match_skips_wit :
    read_csq_once .Open true (.ok (strL ("OK"))) = ((none, none, none), .Open)
    ∧ poll_cycle 0 (read_csq_once .Open true (.ok (strL ("OK")))).1 true
        = { stored := [], published := [], continues := true } :=
  poll_no_match_skips .Open (strL ("OK")) 0 true (by decide)

/-- Python `str.replace("\n\n", "\n")`: non-overlapping, left to right. -/
def collapseNN : List Char → List Char
  | '\n' :: '\n' :: rest => '\n' :: collapseNN rest
  | c :: rest => c :: collapseNN rest
  | [] => []

/-- Python `str.strip()` over ASCII whitespace. -/
def stripEnds (l : List Char) : List Char :=
  ((l.dropWhile isSpaceChar).reverse.dropWhile isSpaceChar).reverse

/-- `clean_resp` of `make_call`: drop carriage returns, collapse doubled
newlines, strip surrounding whitespace. -/
def clean_resp (s : List Char) : List Char :=
  stripEnds (collapseNN (s.filter (fun c => !(c == '\r'))))

/-- `make_call`'s JSON-shaped result. -/
inductive DialResult where
  | ok (number : List Char) (callSeconds : ℤ) (respStart respEnd : List Char)
  | error (msg : List Char)
deriving DecidableEq

/-- Result of `make_call` together with the channel state it leaves behind
and the commands it wrote on the wire. -/
structure CallOutcome where
  result : DialResult
  chan : SerialChan
  writes : List (List Char)
deriving DecidableEq

/-- The `ATD<number>;\r` command bytes written by `make_call`. -/
def dial_cmd (number : List Char) : List Char :=
  strL ("ATD") ++ number ++ strL (";\r")

/-- The locked dial/hangup exchange of `make_call` on an open channel: on
success the two drained response texts, on an I/O exception an error. -/
def dialFromOpenChan (number : List Char) (callSeconds : ℤ)
    (exch : Except (List Char) (List Char × List Char)) : CallOutcome :=
  match exch with
  | .ok rr => { result := .ok number callSeconds (clean_resp rr.1) (clean_resp rr.2),
                chan := .Open,
                writes := [dial_cmd number, strL ("ATH\r")] }
  | .error e => { result := .error e, chan := .Closed, writes := [] }

/-- `make_call(number, call_seconds)`: when `ser is None`, first re-attempt
`open_serial()`; if the channel is still closed return the
`"Serial not open"` error; otherwise dial and hang up under the lock, and on
an I/O exception set `ser = None` and return an error result. -/
def make_call (number : List Char) (callSeconds : ℤ) (st : SerialChan)
    (openOk : Bool) (exch : Except (List Char) (List Char × List Char)) :
    CallOutcome :=
  match st, openOk with
  | .Closed, false => { result := .error (strL ("Serial not open")),
                        chan := .Closed, writes := [] }
  | .Closed, true => dialFromOpenChan number callSeconds exch
  | .Open, _ => dialFromOpenChan number callSeconds exch

/-- C8: when the channel cannot be opened or the exchange raises, the signal
read and the dial both return a no-reading / error result instead of letting
the exception escape, the channel is left `Closed`, and an access that starts
from `Closed` re-attempts the open — it behaves exactly like an access on an
open channel. -/
theorem channel_failure_degrades :
    (∀ exch, read_csq_once .Closed false exch = ((none, none, none), .Closed))
    ∧ (∀ openOk, read_csq_once .Open openOk (.error ())
        = ((none, none, none), .Closed))
    ∧ (∀ exch, read_csq_once .Closed true exch = read_csq_once .Open true exch)
    ∧ (∀ n cs exch, make_call n cs .Closed false exch
        = { result := .error (strL ("Serial not open")), chan := .Closed,
            writes := [] })
    ∧ (∀ n cs openOk e, make_call n cs .Open openOk (.error e)
        = { result := .error e, chan := .Closed, writes := [] })
    ∧ (∀ n cs exch, make_call n cs .Closed true exch
        = make_call n cs .Open true exch) :=
  ⟨fun _ => rfl, fun _ => rfl, fun _ => rfl, fun _ _ _ => rfl,
   fun _ _ _ _ => rfl, fun _ _ _ => rfl⟩

/-- The phone number hard-coded in `auto_call_loop` and used as the default
of `make_call` and of the `/call` endpoint. -/
def AUTO_DIAL_NUMBER : List Char := strL ("+870772001899")

/-- One enabled `auto_call_loop` cycle's dial:
`make_call("+870772001899", auto_call_duration)`. -/
def auto_call_cycle (duration : ℤ) (st : SerialChan) (openOk : Bool)
    (exch : Except (List Char) (List Char × List Char)) : CallOutcome :=
  make_call AUTO_DIAL_NUMBER duration st openOk exch

/-- The `/call` endpoint: `number` and `secs` query parameters defaulting to
`"+870772001899"` and `15`. -/
def call_now (numberArg : Option (List Char)) (secsArg : Option ℤ)
    (st : SerialChan) (openOk : Bool)
    (exch : Except (List Char) (List Char × List Char)) : CallOutcome :=
  make_call (numberArg.getD (strL ("+870772001899"))) (secsArg.getD 15)
    st openOk exch

/-- C10: every auto-dial cycle dials the single hard-coded number
`+870772001899` — on a successful exchange the wire sees
`ATD+870772001899;` and the result records that number — and a `/call`
request that omits the `number` parameter dials the same fixed default. -/
theorem auto_dial_fixed_number :
    (∀ d r1 r2, (auto_call_cycle d .Open true (.ok (r1, r2))).writes
        = [strL ("ATD+870772001899;\r"), strL ("ATH\r")]
      ∧ (auto_call_cycle d .Open true (.ok (r1, r2))).result
        = .ok (strL ("+870772001899")) d (clean_resp r1) (clean_resp r2))
    ∧ (∀ s st openOk exch, call_now none s st openOk exch
        = make_call (strL ("+870772001899")) (s.getD 15) st openOk exch) :=
  ⟨fun _ _ _ => ⟨rfl, rfl⟩, fun _ _ _ _ => rfl⟩

/-- `SchedulerConfig`: the module-level mutable settings read by the two
loops — `current_interval`, `auto_call_interval`, `auto_call_duration`,
`auto_call_enabled`. -/
structure SchedulerConfig where
  current_interval : ℚ
  auto_call_interval : ℤ
  auto_call_duration : ℤ
  auto_call_enabled : Bool
deriving DecidableEq

/-- HTTP-style reply of the configuration endpoints. -/
inductive ConfigReply where
  | ok
  | error (msg : String)
deriving DecidableEq

/-- The `/config?interval=` endpoint `update_config`: reject with an
explanatory message unless `1 <= interval <= 300`, otherwise update
`current_interval`. -/
def update_config (c : SchedulerConfig) (newInterval : ℚ) :
    SchedulerConfig × ConfigReply :=
  if newInterval < 1 ∨ 300 < newInterval then
    (c, .error ("Interval 1-300 detik"))
  else
    ({ c with current_interval := newInterval }, .ok)

/-- The `/auto_call/start?interval=&secs=` endpoint `start_auto_call`:
validate `10 <= interval <= 86400`, then `5 <= secs <= 300`, rejecting with
an explanatory message and touching nothing otherwise; on success set the
interval, the duration and the enabled flag. -/
def start_auto_call (c : SchedulerConfig) (interval duration : ℤ) :
    SchedulerConfig × ConfigReply :=
  if interval < 10 ∨ 86400 < interval then
    (c, .error ("Interval harus antara 10-86400 detik"))
  else if duration < 5 ∨ 300 < duration then
    (c, .error ("Durasi harus antara 5-300 detik"))
  else
    ({ c with auto_call_interval := interval, auto_call_duration := duration,
              auto_call_enabled := true }, .ok)

/-- C4: every out-of-range `configureSchedule` or `startAutoDial` request is
rejected with an explanatory error and mutates no configuration state, while
in-range requests are accepted and applied. -/
theorem config_validation :
    (∀ c x, (x < 1 ∨ 300 < x) →
      update_config c x = (c, .error ("Interval 1-300 detik")))
    ∧ (∀ c x, 1 ≤ x → x ≤ 300 →
      update_config c x = ({ c with current_interval := x }, .ok))
    ∧ (∀ c i d, (i < 10 ∨ 86400 < i) →
      start_auto_call c i d = (c, .error ("Interval harus antara 10-86400 detik")))
    ∧ (∀ c i d, 10 ≤ i → i ≤ 86400 → (d < 5 ∨ 300 < d) →
      start_auto_call c i d = (c, .error ("Durasi harus antara 5-300 detik")))
    ∧ (∀ c i d, 10 ≤ i → i ≤ 86400 → 5 ≤ d → d ≤ 300 →
      start_auto_call c i d
        = ({ c with auto_call_interval := i, auto_call_duration := d,
                    auto_call_enabled := true }, .ok)) := by
  refine ⟨?_, ?_, ?_, ?_, ?_⟩
  · intro c x h
    unfold update_config
    rw [if_pos h]
  · intro c x h1 h2
    unfold update_config
    rw [if_neg (by push_neg; exact ⟨by linarith, by linarith⟩)]
  · intro c i d h
    unfold start_auto_call
    rw [if_pos h]
  · intro c i d h1 h2 h3
    unfold start_auto_call
    rw [if_neg (by push_neg; exact ⟨by linarith, by linarith⟩), if_pos h3]
  · intro c i d h1 h2 h3 h4
    unfold start_auto_call
    rw [if_neg (by push_neg; exact ⟨by linarith, by linarith⟩),
        if_neg (by push_neg; exact ⟨by linarith, by linarith⟩)]

/-- C4 witness: the validators evaluated on concrete in- and out-of-range
requests against the default configuration. -/
theorem config_validation_wit :
    update_config ⟨10, 1800, 15, false⟩ 301
      = (⟨10, 1800, 15, false⟩, .error ("Interval 1-300 detik"))
    ∧ update_config ⟨10, 1800, 15, false⟩ 20 = (⟨20, 1800, 15, false⟩, .ok)
    ∧ start_auto_call ⟨10, 1800, 15, false⟩ 5 15
      = (⟨10, 1800, 15, false⟩, .error ("Interval harus antara 10-86400 detik"))
    ∧ start_auto_call ⟨10, 1800, 15, false⟩ 1800 400
      = (⟨10, 1800, 15, false⟩, .error ("Durasi harus antara 5-300 detik"))
    ∧ start_auto_call ⟨10, 1800, 15, false⟩ 1800 15
      = (⟨10, 1800, 15, true⟩, .ok) :=
  ⟨config_validation.1 _ 301 (Or.inr (by norm_num)),
   config_validation.2.1 _ 20 (by norm_num) (by norm_num),
   config_validation.2.2.1 _ 5 15 (Or.inl (by norm_num)),
   config_validation.2.2.2.1 _ 1800 400 (by norm_num) (by norm_num)
     (Or.inr (by norm_num)),
   config_validation.2.2.2.2 _ 1800 15 (by norm_num) (by norm_num)
     (by norm_num) (by norm_num)⟩

/-- The `ORDER BY timestamp DESC` comparison used by `get_history`. -/
def tsDesc (a b : CsqRow) : Prop := b.timestamp ≤ a.timestamp

instance : DecidableRel tsDesc :=
  fun a b => inferInstanceAs (Decidable (b.timestamp ≤ a.timestamp))

instance : IsTotal CsqRow tsDesc := ⟨fun a b => le_total b.timestamp a.timestamp⟩

instance : IsTrans CsqRow tsDesc := ⟨fun _ _ _ h1 h2 => le_trans h2 h1⟩

/-- The SQL `WHERE` window of `get_history`: `timestamp >= start` when a
start bound is given, `timestamp < end` when an end bound is given. -/
def inWindow (start stop : Option ℤ) (r : CsqRow) : Bool :=
  (match start with
   | some s => decide (s ≤ r.timestamp)
   | none => true)
  && (match stop with
      | some e => decide (r.timestamp < e)
      | none => true)

/-- `get_history(limit, start, end)`: scan the stored rows (whatever order
the storage yields them in), filter by the window, apply
`ORDER BY timestamp DESC LIMIT limit`, then `rows.reverse()` so the returned
page runs oldest to newest. -/
def get_history (rows : List CsqRow) (limit : ℕ) (start stop : Option ℤ) :
    List CsqRow :=
  (((rows.filter (inWindow start stop)).insertionSort tsDesc).take limit).reverse

/-- C5: for every stored set of readings — in any insertion or storage scan
order — every limit and every window, the history page is sorted in
ascending timestamp order. -/
theorem get_history_sorted (rows : List CsqRow) (limit : ℕ)
    (start stop : Option ℤ) :
    List.Sorted (fun a b => a.timestamp ≤ b.timestamp)
      (get_history rows limit start stop) := by
  unfold get_history
  refine List.pairwise_reverse.mpr ?_
  have hs : ((rows.filter (inWindow start stop)).insertionSort tsDesc).Pairwise
      tsDesc :=
    List.sorted_insertionSort tsDesc _
  exact hs.sublist (List.take_sublist _ _)

/-- State of an anchored-deadline loop: the deadline variable (`next_poll` /
`next_call`) and the current clock. -/
structure SchedState where
  next : ℚ
  now : ℚ
deriving DecidableEq

/-- The scheduling step shared verbatim by `polling_loop` and
`auto_call_loop`: the cycle's work takes `work` seconds, then
`next += interval`, then `sleep_time = next - time.time()`; sleep it when
positive, otherwise reset the deadline to the current time and do not sleep.
Returns the new state and the time slept. -/
def schedCycle (interval work : ℚ) (s : SchedState) : SchedState × ℚ :=
  let t := s.now + work
  let next1 := s.next + interval
  let sleep := next1 - t
  if 0 < sleep then ({ next := next1, now := t + sleep }, sleep)
  else ({ next := t, now := t }, 0)

/-- Cycle start times of a loop run over a list of `(interval, work)` pairs —
the interval is re-read from the shared configuration at each cycle. -/
def schedFires (s : SchedState) : List (ℚ × ℚ) → List ℚ
  | [] => []
  | p :: ps => s.now :: schedFires (schedCycle p.1 p.2 s).1 ps

/-- Consecutive cycle starts are separated by at least that cycle's
configured interval. -/
def firesSpaced : List ℚ → List (ℚ × ℚ) → Prop
  | f1 :: f2 :: fs, p :: ps => p.1 ≤ f2 - f1 ∧ firesSpaced (f2 :: fs) ps
  | _, _ => True

/-- After any cycle the deadline coincides with the clock again, and the
clock advanced by at least the configured interval. -/
theorem schedCycle_inv (interval work : ℚ) (s : SchedState)
    (h : s.next = s.now) :
    (schedCycle interval work s).1.next = (schedCycle interval work s).1.now
    ∧ s.now + interval ≤ (schedCycle interval work s).1.now := by
  obtain ⟨sn, sw⟩ := s
  simp only at h
  subst h
  simp only [schedCycle]
  split_ifs with h'
  · constructor
    · show sn + interval = sn + work + (sn + interval - (sn + work))
      ring
    · show sn + interval ≤ sn + work + (sn + interval - (sn + work))
      linarith
  · refine ⟨rfl, ?_⟩
    show sn + interval ≤ sn + work
    have h2 := le_of_not_lt h'
    simp only at h2
    linarith

/-- Runs starting with the deadline anchored at the clock keep every pair of
consecutive cycle starts at least one interval apart. -/
theorem schedFires_spaced (ps : List (ℚ × ℚ)) (s : SchedState)
    (h : s.next = s.now) : firesSpaced (schedFires s ps) ps := by
  induction ps generalizing s with
  | nil => trivial
  | cons p ps ih =>
    cases ps with
    | nil => trivial
    | cons q ps' =>
      have h2 := schedCycle_inv p.1 p.2 s h
      show p.1 ≤ (schedCycle p.1 p.2 s).1.now - s.now
        ∧ firesSpaced (schedFires (schedCycle p.1 p.2 s).1 (q :: ps')) (q :: ps')
      exact ⟨by linarith [h2.2], ih _ h2.1⟩

/-- C3: both loops use anchored next-deadline scheduling — each cycle the
deadline advances by the currently configured interval and the loop sleeps
`max 0 (nextDeadline - now)`; when a cycle overruns (the computed sleep is
not positive) the deadline is reset to the current time; and no run ever
fires a burst of make-up cycles: consecutive cycle starts stay at least the
configured interval apart. -/
theorem scheduler_anchored (interval work : ℚ) (s : SchedState)
    (ps : List (ℚ × ℚ)) (hanchor : s.next = s.now) :
    (schedCycle interval work s).2
        = max 0 (s.next + interval - (s.now + work))
    ∧ (s.next + interval - (s.now + work) ≤ 0 →
        (schedCycle interval work s).1.next = s.now + work
        ∧ (schedCycle interval work s).1.now = s.now + work)
    ∧ firesSpaced (schedFires s ps) ps := by
  refine ⟨?_, ?_, schedFires_spaced ps s hanchor⟩
  · simp only [schedCycle]
    split_ifs with h'
    · rw [max_eq_right (le_of_lt h')]
    · rw [max_eq_left (le_of_not_lt h')]
  · intro hover
    simp only [schedCycle]
    rw [if_neg (not_lt.mpr hover)]
    exact ⟨rfl, rfl⟩

/-- C3 witness: a three-cycle run at interval 10 whose middle cycle overruns
(25 seconds of work): the overrunning cycle sleeps 0 and resets the deadline
to its finish time, and the cycle starts 0, 10, 35 are never less than one
interval apart. -/
theorem scheduler_anchored_wit :
    (schedCycle 10 25 ⟨0, 0⟩).2 = max 0 ((0 : ℚ) + 10 - (0 + 25))
    ∧ ((0 : ℚ) + 10 - (0 + 25) ≤ 0 →
        (schedCycle 10 25 ⟨0, 0⟩).1.next = (0 : ℚ) + 25
        ∧ (schedCycle 10 25 ⟨0, 0⟩).1.now = (0 : ℚ) + 25)
    ∧ firesSpaced (schedFires ⟨0, 0⟩ [(10, 3), (10, 25), (10, 4)])
        [(10, 3), (10, 25), (10, 4)] :=
  scheduler_anchored 10 25 ⟨0, 0⟩ [(10, 3), (10, 25), (10, 4)] rfl

/-- Events observable on the shared serial channel: entering and leaving the
`with serial_lock:` block, and the byte-level operations done inside it. -/
inductive ChanEv where
  | acq (tid : ℕ)
  | rel (tid : ℕ)
  | byteOp (tid : ℕ)
deriving DecidableEq

/-- The channel events of `read_csq_once` for thread `t`: the whole
`reset_input_buffer` / `write(AT+CSQ)` / `read_all` sequence sits between
one acquire and one release of `serial_lock`. -/
def read_trace (t : ℕ) : List ChanEv :=
  [.acq t, .byteOp t, .byteOp t, .byteOp t, .rel t]

/-- The channel events of `make_call` for thread `t`: the
`reset_input_buffer` / `write(ATD...)` / `read_all` / `write(ATH)` /
`read_all` sequence sits between one acquire and one release of
`serial_lock`. -/
def call_trace (t : ℕ) : List ChanEv :=
  [.acq t, .byteOp t, .byteOp t, .byteOp t, .byteOp t, .byteOp t, .rel t]

/-- An interleaving of two event sequences into one schedule, preserving
each thread's own order. -/
inductive Merge : List ChanEv → List ChanEv → List ChanEv → Prop
  | nil : Merge [] [] []
  | left {x : ChanEv} {xs ys s : List ChanEv} :
      Merge xs ys s → Merge (x :: xs) ys (x :: s)
  | right {y : ChanEv} {xs ys s : List ChanEv} :
      Merge xs ys s → Merge xs (y :: ys) (y :: s)

/-- Feasibility of a schedule under the single `serial_lock`: a thread can
only acquire a free lock and only release a lock it holds; a schedule
violating this would have a blocked thread proceeding and cannot occur. -/
def lockOkFrom : Option ℕ → List ChanEv → Bool
  | _, [] => true
  | st, .acq u :: rest => st == none && lockOkFrom (some u) rest
  | st, .rel u :: rest => st == some u && lockOkFrom none rest
  | st, .byteOp _ :: rest => lockOkFrom st rest

/-- A schedule is feasible when it respects the lock from the free state. -/
def lockOk (s : List ChanEv) : Bool := lockOkFrom none s

/-- Thread ids of the byte-level channel operations, in schedule order. -/
def byteTids (s : List ChanEv) : List ℕ :=
  s.filterMap (fun e => match e with | .byteOp t => some t | _ => none)

/-- Number of adjacent thread switches in a sequence of thread ids. -/
def countSwitches : List ℕ → ℕ
  | a :: b :: rest => (if a = b then 0 else 1) + countSwitches (b :: rest)
  | _ => 0

/-- Interleaving with an exhausted left thread is the right thread's trace. -/
theorem merge_nil_left (ys s : List ChanEv) (h : Merge [] ys s) : s = ys := by
  induction ys generalizing s with
  | nil => cases h; rfl
  | cons y ys ih =>
    cases h with
    | right h' => rw [ih _ h']

/-- `Merge` is symmetric in its two threads. -/
theorem merge_swap {xs ys s : List ChanEv} (h : Merge xs ys s) :
    Merge ys xs s := by
  induction h with
  | nil => exact .nil
  | left _ ih => exact .right ih
  | right _ ih => exact .left ih

/-- While a thread holds the lock, a feasible schedule must run that
thread's remaining byte operations and its release before the other thread
(whose next event is an acquire) can do anything. -/
theorem merge_locked (a b : ℕ) (u w : List ChanEv) (s : List ChanEv)
    (hu : ∀ e ∈ u, ∃ t, e = ChanEv.byteOp t)
    (h : Merge (u ++ [ChanEv.rel a]) (ChanEv.acq b :: w) s)
    (hl : lockOkFrom (some a) s = true) :
    s = (u ++ [ChanEv.rel a]) ++ ChanEv.acq b :: w := by
  induction u generalizing s with
  | nil =>
    cases h with
    | left h' =>
      rw [merge_nil_left _ _ h']
      rfl
    | right h' => simp [lockOkFrom] at hl
  | cons e u ih =>
    obtain ⟨t, rfl⟩ := hu e (by simp)
    rw [List.cons_append] at h
    cases h with
    | left h' =>
      rename_i s'
      have heq := ih s' (fun e he => hu e (List.mem_cons_of_mem _ he)) h' hl
      rw [heq]
      rfl
    | right h' => simp [lockOkFrom] at hl

/-- In a feasible schedule, two whole locked blocks serialize: one runs
entirely before the other. -/
theorem merge_lockOk_seq (a b : ℕ) (u w : List ChanEv) (s : List ChanEv)
    (hu : ∀ e ∈ u, ∃ t, e = ChanEv.byteOp t)
    (hw : ∀ e ∈ w, ∃ t, e = ChanEv.byteOp t)
    (h : Merge (ChanEv.acq a :: u ++ [ChanEv.rel a])
      (ChanEv.acq b :: w ++ [ChanEv.rel b]) s)
    (hl : lockOk s = true) :
    s = (ChanEv.acq a :: u ++ [ChanEv.rel a])
          ++ (ChanEv.acq b :: w ++ [ChanEv.rel b])
    ∨ s = (ChanEv.acq b :: w ++ [ChanEv.rel b])
          ++ (ChanEv.acq a :: u ++ [ChanEv.rel a]) := by
  cases h with
  | left h' =>
    rename_i s'
    left
    have hl' : lockOkFrom (some a) s' = true := by
      simpa [lockOk, lockOkFrom] using hl
    rw [merge_locked a b u (w ++ [ChanEv.rel b]) s' hu h' hl']
    rfl
  | right h' =>
    rename_i s'
    right
    have hl' : lockOkFrom (some b) s' = true := by
      simpa [lockOk, lockOkFrom] using hl
    rw [merge_locked b a w (u ++ [ChanEv.rel a]) s' hw (merge_swap h') hl']
    rfl

/-- C9: in every lock-feasible interleaving of a poll's channel use and a
dial's channel use, the byte operations on the wire never interleave: all of
one operation's bytes precede all of the other's (at most one switch of
thread id in the byte sequence). -/
theorem serial_lock_no_interleave (s : List ChanEv)
    (hm : Merge (read_trace 0) (call_trace 1) s)
    (hl : lockOk s = true) : countSwitches (byteTids s) ≤ 1 := by
  have h2 := merge_lockOk_seq 0 1
    [ChanEv.byteOp 0, ChanEv.byteOp 0, ChanEv.byteOp 0]
    [ChanEv.byteOp 1, ChanEv.byteOp 1, ChanEv.byteOp 1, ChanEv.byteOp 1,
      ChanEv.byteOp 1]
    s
    (by intro e he; simp at he; exact ⟨0, he⟩)
    (by intro e he; simp at he; exact ⟨1, he⟩)
    hm hl
  rcases h2 with rfl | rfl <;> decide

/-- One thread's whole trace followed by the other's is an interleaving. -/
theorem merge_append (xs ys : List ChanEv) : Merge xs ys (xs ++ ys) := by
  induction xs with
  | nil =>
    induction ys with
    | nil => exact .nil
    | cons y ys ih => exact .right ih
  | cons x xs ih => exact .left ih

/-- C9 witness: the schedule running the poll's locked block and then the
dial's is lock-feasible, and its byte operations indeed do not interleave. -/
theorem serial_lock_no_interleave_wit :
    countSwitches (byteTids (read_trace 0 ++ call_trace 1)) ≤ 1 :=
  serial_lock_no_interleave (read_trace 0 ++ call_trace 1)
    (merge_append (read_trace 0) (call_trace 1)) (by decide)
